import Mathlib

/-!
# toyc: container lifecycle coordinator

A shallow embedding of `container.go`, `exec.go` and `main.go`.

* Go strings are modelled by Lean strings.  The only bytes the code inspects
  are the ASCII characters `/` and `.`, so working on characters instead of
  bytes does not change any result.
* Go errors are values of `GoError`; a `nil` error is `none`.
* Everything the program does to the outside world is recorded, in program
  order, in a list of `Effect`s; everything the outside world answers is read
  from a `World`.
-/

namespace Toyc

/-! ## Errors -/

/-- Go `error` values that the program can hold.  `exitError status msg` is an
`*exec.ExitError` whose `Sys()` is the wait status `status`. -/
inductive GoError where
  | ErrContainerNotExist
  | exitError (status : Nat) (msg : String)
  | other (msg : String)
  deriving DecidableEq, Repr

/-- The text printed for an error by the `%v` verb. -/
def GoError.Error : GoError → String
  | .ErrContainerNotExist => "container does not exist"
  | .exitError _ msg => msg
  | .other msg => msg

/-! ## Data model (`container.go`) -/

/-- MountEntry represents a container mount operation.  The Go field `Type`
is spelled `Typ` because `Type` is reserved. -/
structure MountEntry where
  Source : String
  Target : String
  Typ : String
  Options : List String
  deriving DecidableEq, Repr

/-- Container represents the properties of a container. -/
structure Container where
  Name : String
  Root : String
  Argv : List String
  Mounts : List MountEntry
  RuntimePath : String
  deriving DecidableEq, Repr

/-- The fields of `exec.Cmd` the program touches.  `Name` and `Args` are the
`name` and `arg...` parameters given to `exec.Command` / `exec.CommandContext`
(so `Args` does not repeat the program name); `Ctx` tells whether the command
is bound to the cancellable context; `Stdin`, `Stdout`, `Stderr` tell whether
the stream is set to the parent's; `Env` is `none` for a nil environment. -/
structure Cmd where
  Name : String
  Args : List String
  Ctx : Bool
  Stdin : Bool
  Stdout : Bool
  Stderr : Bool
  Env : Option (List String)
  deriving DecidableEq, Repr

/-- Go `exec.CommandContext(ctx, name, arg...)`. -/
def CommandContext (name : String) (arg : List String) : Cmd :=
  { Name := name, Args := arg, Ctx := true,
    Stdin := false, Stdout := false, Stderr := false, Env := none }

/-- Go `exec.Command(name, arg...)`. -/
def execCommand (name : String) (arg : List String) : Cmd :=
  { Name := name, Args := arg, Ctx := false,
    Stdin := false, Stdout := false, Stderr := false, Env := none }

/-! ## Library functions used by the program -/

/-- Go `strings.Join(elems, sep)`. -/
def stringsJoin : List String → String → String
  | [], _ => ""
  | [e], _ => e
  | e :: f :: es, sep => e ++ sep ++ stringsJoin (f :: es) sep

/-- Go `filepath.IsAbs` on Unix: `strings.HasPrefix(path, "/")`. -/
def IsAbs (path : String) : Bool :=
  match path.data with
  | c :: _ => c == '/'
  | [] => false

/-- The backtracking loop of `filepath.Clean` for a `..` element, after the
first `out.w--`: `for out.w > dotdot && !IsPathSeparator(out.index(out.w))`
decrements `out.w`.  The argument is the current `out.w`, the result the final
one. -/
def cleanBacktrack (buf : List Char) (dotdot : Nat) : Nat → Nat
  | 0 => 0
  | w + 1 =>
    if dotdot < w + 1 ∧ buf.getD (w + 1) '/' ≠ '/' then cleanBacktrack buf dotdot w
    else w + 1

/-- The main loop `for r < n` of `filepath.Clean`.  The list is `path[r:]`,
`out` holds the `out.w` bytes written so far.  Every iteration advances `r`, so
the loop runs at most `n` times; the first argument bounds the number of
iterations. -/
def cleanLoop (rooted : Bool) : Nat → List Char → List Char → Nat → List Char
  | 0, _, out, _ => out
  | _ + 1, [], out, _ => out
  | fuel + 1, c :: rest, out, dotdot =>
    if c = '/' then
      -- empty path element
      cleanLoop rooted fuel rest out dotdot
    else if c = '.' ∧ (rest = [] ∨ rest.head? = some '/') then
      -- . element
      cleanLoop rooted fuel rest out dotdot
    else if c = '.' ∧ rest.head? = some '.' ∧
        (rest.tail = [] ∨ rest.tail.head? = some '/') then
      -- .. element: remove to last separator
      if dotdot < out.length then
        cleanLoop rooted fuel rest.tail
          (out.take (cleanBacktrack out dotdot (out.length - 1))) dotdot
      else if rooted = false then
        let out1 := if 0 < out.length then out ++ ['/'] else out
        let out2 := out1 ++ ['.', '.']
        cleanLoop rooted fuel rest.tail out2 out2.length
      else
        cleanLoop rooted fuel rest.tail out dotdot
    else
      -- real path element: add slash if needed, copy element
      let out1 :=
        if (rooted = true ∧ out.length ≠ 1) ∨ (rooted = false ∧ out.length ≠ 0)
        then out ++ ['/'] else out
      cleanLoop rooted fuel ((c :: rest).dropWhile (· ≠ '/'))
        (out1 ++ (c :: rest).takeWhile (· ≠ '/')) dotdot

/-- Go `filepath.Clean` on Unix (no volume name, separator `/`). -/
def Clean (path : String) : String :=
  match path.data with
  | [] => "."
  | c :: rest =>
    let rooted : Bool := c == '/'
    let n := (c :: rest).length
    let out :=
      if rooted then cleanLoop rooted n rest ['/'] 1
      else cleanLoop rooted n (c :: rest) [] 0
    -- Turn empty string into "."
    String.mk (if out.length = 0 then ['.'] else out)

/-- Go `filepath.Join` on Unix: the elements from the first non-empty one on
are joined with `/` and cleaned; the result is empty when all are empty. -/
def Join : List String → String
  | [] => ""
  | e :: es => if e ≠ "" then Clean (stringsJoin (e :: es) "/") else Join es

/-! ## `Container.Command` (`container.go`, lines 37-73) -/

/-- The loop `for _, mount := range c.Mounts` of `Container.Command`
(lines 48-64), started on the remaining mount entries with the current value
of `args`. -/
def Command.mountLoop : List MountEntry → List String → Except GoError (List String)
  | [], args => .ok args
  | mount :: rest, args =>
    if mount.Target = "" then
      .error (.other "Mount entry must have a non-empty target")
    else
      let Source := if mount.Source = "" then "none" else mount.Source
      let Typ := if mount.Typ = "" then "none" else mount.Typ
      let mountArg := "source=" ++ Source ++ ",target=" ++ mount.Target ++
        ",type=" ++ Typ ++ "," ++ stringsJoin mount.Options ","
      Command.mountLoop rest (args ++ ["--mount", mountArg])

/-- Go `(c *Container).Command(ctx, init)`: the command, or the error. -/
def Command (c : Container) (init : Bool) : Except GoError Cmd :=
  let args : List String := []
  let built : Except GoError (List String) :=
    if init then
      Command.mountLoop c.Mounts (args ++ ["-r", c.Root, "--persist", c.RuntimePath])
    else
      .ok (args ++ ["--share", c.RuntimePath])
  match built with
  | .error err => .error err
  | .ok args =>
    let args := args ++ ["--workdir", "/", "--"]
    let args := args ++ c.Argv
    .ok (CommandContext "bst" args)

/-! ## The outside world -/

/-- What `os.Open` followed by `json.NewDecoder(f).Decode(&ctnr)` yields for a
path: the file is absent, opening fails otherwise, or the file opens and
decoding leaves `ctnr` as `decoded` and returns `decodeErr`. -/
inductive OpenResult where
  | notExist
  | failed (err : GoError)
  | file (decoded : Container) (decodeErr : Option GoError)
  deriving DecidableEq, Repr

/-- What `os.Stat` yields for a path: success, an error for which
`os.IsNotExist` holds, or another error. -/
inductive StatResult where
  | ok
  | notExist
  | failed (err : GoError)
  deriving DecidableEq, Repr

/-- The answers of the environment during one invocation. -/
structure World where
  /-- Value of `os.Args[0]`. -/
  Args0 : String
  /-- Go `os.Getenv`. -/
  Getenv : String → String
  /-- Result of opening and decoding the file at a path. -/
  Open : String → OpenResult
  /-- Result of `os.Stat` at probe time. -/
  Stat : String → StatResult
  /-- Error returned by `os.MkdirAll`. -/
  MkdirAll : String → Option GoError
  /-- Whether the `select` takes the `<-signals` case (a termination signal
  arrived before the child completed) rather than the `<-done` case. -/
  signalFirst : Bool
  /-- Value returned by `cmd.Run()` for the `bst` child. -/
  childRun : Option GoError
  /-- Value returned by `unpersist.Run()`. -/
  unpersistRun : Option GoError
  /-- Error returned by `os.Remove`. -/
  Remove : String → Option GoError

/-- Observable actions, in program order. -/
inductive Effect where
  | openFile (path : String)
  | closeFile (path : String)
  | stat (path : String)
  | mkdirAll (path : String) (perm : Nat) (err : Option GoError)
  | notify (signals : List Nat)
  /-- The goroutine calls `cmd.Run()`. -/
  | start (cmd : Cmd)
  /-- A value was received from `signals`. -/
  | recvSignal
  /-- Call of `cancel()`. -/
  | cancel
  /-- The value sent by the goroutine was received from `done`: the child's
  completion is observed. -/
  | recvDone (err : Option GoError)
  /-- A receive from the already closed and drained `done`. -/
  | recvClosed
  /-- A synchronous `Run()` of a command, with its result. -/
  | run (cmd : Cmd) (err : Option GoError)
  | remove (path : String) (err : Option GoError)
  | stderr (text : String)
  | goPanic (text : String)
  deriving DecidableEq, Repr

/-- Trace of an invocation and the argument of `os.Exit` that ended it
(`none` when the function returned to its caller). -/
structure Result where
  trace : List Effect
  exit : Option Int
  deriving DecidableEq, Repr

/-- Runs first the effects `pre`, then `r`. -/
def Result.after (pre : List Effect) (r : Result) : Result :=
  { trace := pre ++ r.trace, exit := r.exit }

/-- Exit status of the process: `main` returns normally (status 0) when
`root.Execute()` returned without error, i.e. when `execCmd` returned. -/
def Result.status (r : Result) : Int := r.exit.getD 0

/-- Whether `p` exists after the effects, given whether it existed before: a
successful `os.MkdirAll p` makes `p` exist, a successful `os.Remove p` makes it
absent. -/
def existsAfter (p : String) : List Effect → Bool → Bool
  | [], b => b
  | .mkdirAll q _ none :: es, b => existsAfter p es (if q = p then true else b)
  | .remove q none :: es, b => existsAfter p es (if q = p then false else b)
  | _ :: es, b => existsAfter p es b

/-! ## Wait status (`syscall.WaitStatus`, Linux) -/

/-- Go `WaitStatus.Exited`: `w&mask == 0` with `mask = 0x7F`. -/
def Exited (w : Nat) : Bool := w % 128 == 0

/-- Go `WaitStatus.Signaled`: `w&mask != stopped && w&mask != 0`. -/
def Signaled (w : Nat) : Bool := w % 128 != 127 && w % 128 != 0

/-- Go `WaitStatus.ExitStatus`: `int(w>>shift) & 0xFF`, or -1 if not exited. -/
def ExitStatus (w : Nat) : Int := if Exited w then ((w / 256 % 256 : Nat) : Int) else -1

/-- Go `WaitStatus.Signal`: `w & mask`, or -1 if not signaled. -/
def Signal (w : Nat) : Int := if Signaled w then ((w % 128 : Nat) : Int) else -1

/-- How a started (or not started) child ends.  For a death by signal, `text`
is what `ProcessState.String()` prints (`signal: ` and the name of the signal,
then ` (core dumped)` if a core was written); the program only passes it on
to a diagnostic. -/
inductive ChildOutcome where
  | exited (code : Nat)
  | signaled (sig : Nat) (core : Bool) (text : String)
  | failedToStart (msg : String)
  deriving DecidableEq, Repr

/-- What `cmd.Run()` returns for an outcome (package `os/exec`, Linux wait
status encoding): `nil` for exit code 0, an `*exec.ExitError` carrying the wait
status for any other exit and for death by signal (its text is the one the
outcome carries), another error when the command could not be started. -/
def cmdRun : ChildOutcome → Option GoError
  | .exited code =>
    if code = 0 then none
    else some (.exitError (code * 256) ("exit status " ++ toString code))
  | .signaled sig core text =>
    some (.exitError (sig + if core then 128 else 0) text)
  | .failedToStart msg => some (.other msg)

def SIGHUP : Nat := 1
def SIGINT : Nat := 2
def SIGQUIT : Nat := 3
def SIGTERM : Nat := 15

/-! ## `main.go` -/

/-- Go `fatalf(exit, msg, args...)`, with `msg` already formatted. -/
def fatalf (w : World) (exit : Int) (msg : String) : Result :=
  { trace := [.stderr (w.Args0 ++ ": "), .stderr msg, .stderr "\n"], exit := some exit }

/-! ## `LoadContainerConfig` (`container.go`, lines 76-96) -/

/-- Result of `LoadContainerConfig`: the returned pair and the effects. -/
structure Loaded where
  trace : List Effect
  ctnr : Container
  err : Option GoError
  deriving DecidableEq, Repr

/-- The zero value `Container{}`. -/
def Container.zero : Container :=
  { Name := "", Root := "", Argv := [], Mounts := [], RuntimePath := "" }

/-- Go `LoadContainerConfig(path)`. -/
def LoadContainerConfig (w : World) (path : String) : Loaded :=
  let file := Join [path, "container.json"]
  match w.Open file with
  | .notExist =>
    { trace := [.openFile file], ctnr := Container.zero, err := some .ErrContainerNotExist }
  | .failed err =>
    { trace := [.openFile file], ctnr := Container.zero, err := some err }
  | .file decoded err =>
    let ctnr := decoded
    let ctnr := if IsAbs ctnr.Root then ctnr else { ctnr with Root := Join [path, ctnr.Root] }
    let ctnr :=
      if IsAbs ctnr.RuntimePath then ctnr
      else { ctnr with RuntimePath := Join [path, ctnr.RuntimePath] }
    { trace := [.openFile file, .closeFile file], ctnr := ctnr, err := err }

/-! ## `execCmd` (`exec.go`, lines 29-129) -/

/-- Lines 65-128 of `execCmd`: everything after role determination, for the
loaded container `ctnr` (with `Argv` already replaced) and the role `init`. -/
def execCmd.run (w : World) (name : String) (argv : List String) (ctnr : Container)
    (init : Bool) : Result :=
  Result.after [.notify [SIGHUP, SIGINT, SIGTERM, SIGQUIT]] <|
  match Command ctnr init with
  | .error err =>
    fatalf w 1 ("exec " ++ name ++ " " ++ stringsJoin argv " " ++
      ": preparing command: " ++ err.Error)
  | .ok cmd =>
    let cmd := { cmd with
      Stdin := true, Stdout := true, Stderr := true,
      Env := some ["TERM=" ++ w.Getenv "TERM", "PATH=/bin:/usr/bin:/sbin:/usr/sbin"] }
    -- go func() { done <- cmd.Run(); close(done) }()
    let started : List Effect := [.start cmd]
    -- select { case <-signals: cancel(); case err = <-done: }; <-done
    let race : List Effect × Option GoError :=
      if w.signalFirst then ([.recvSignal, .cancel, .recvDone w.childRun], none)
      else ([.recvDone w.childRun, .recvClosed], w.childRun)
    let err := race.2
    let teardown : List Effect :=
      if init then
        let unpersist := { execCommand "bst-unpersist" [ctnr.RuntimePath] with
          Stdout := true, Stderr := true }
        [.run unpersist w.unpersistRun] ++
        (match w.unpersistRun with
          | some e => [.stderr ("cleanup: bst-unpersist " ++ ctnr.RuntimePath ++ ": " ++ e.Error)]
          | none => []) ++
        [.remove ctnr.RuntimePath (w.Remove ctnr.RuntimePath)] ++
        (match w.Remove ctnr.RuntimePath with
          | some e => [.stderr ("cleanup: rmdir " ++ ctnr.RuntimePath ++ ": " ++ e.Error)]
          | none => [])
      else []
    Result.after (started ++ race.1 ++ teardown) <|
    match err with
    | none => { trace := [], exit := none }
    | some e =>
      let fatal := fatalf w 1 ("exec " ++ name ++ " " ++ stringsJoin argv " " ++
        ": running command: " ++ e.Error)
      match e with
      | .exitError status _ =>
        -- Propagate a sensible exit status
        if Exited status then { trace := [], exit := some (ExitStatus status) }
        else if Signaled status then { trace := [], exit := some (128 + Signal status) }
        else fatal
      | _ => fatal

/-- The descriptor directory `path` of `execCmd` (lines 36 and 45). -/
def execCmd.path (w : World) (name : String) : String :=
  Join [w.Getenv "XDG_STATE_HOME", "toyc", "containers", name]

/-- Go `execCmd(_, args)`.  `cobra.MinimumNArgs(2)` keeps `args` from being
empty; indexing an empty `args` would panic. -/
def execCmd (w : World) (args : List String) : Result :=
  match args with
  | [] => { trace := [.goPanic "index out of range"], exit := some 2 }
  | name :: argv =>
    let stateHome := w.Getenv "XDG_STATE_HOME"
    if stateHome = "" ∧ w.Getenv "HOME" = "" then
      fatalf w 1 ("no state home configured -- set the XDG_STATE_HOME " ++
        "or HOME environment variable.")
    else
      let path := execCmd.path w name
      let loaded := LoadContainerConfig w path
      Result.after loaded.trace <|
      match loaded.err with
      | some err =>
        fatalf w 1 ("exec " ++ name ++ " " ++ stringsJoin argv " " ++
          ": loading container: " ++ err.Error)
      | none =>
        let ctnr := { loaded.ctnr with Argv := argv }
        -- If the runtime path does not exist, we are the first process to
        -- start the container, and its init process.
        Result.after [.stat ctnr.RuntimePath] <|
        match w.Stat ctnr.RuntimePath with
        | .notExist =>
          Result.after [.mkdirAll ctnr.RuntimePath 0o777 (w.MkdirAll ctnr.RuntimePath)] <|
          match w.MkdirAll ctnr.RuntimePath with
          | some err => fatalf w 1 ("exec " ++ name ++ ": " ++ err.Error)
          | none => execCmd.run w name argv ctnr true
        | .failed err => fatalf w 1 ("exec " ++ name ++ ": " ++ err.Error)
        | .ok => execCmd.run w name argv ctnr false

/-- The value of `ctnr` in `execCmd` after line 51: the loaded descriptor with
`Argv` replaced by the command given on the command line. -/
def execCmd.ctnr (w : World) (name : String) (argv : List String) : Container :=
  { (LoadContainerConfig w (execCmd.path w name)).ctnr with Argv := argv }

/-- The command `execCmd` runs as its child: the result of `Container.Command`
after lines 79-85 have set the streams and the environment. -/
def execCmd.child (w : World) (cmd : Cmd) : Cmd :=
  { cmd with
    Stdin := true, Stdout := true, Stderr := true,
    Env := some ["TERM=" ++ w.Getenv "TERM", "PATH=/bin:/usr/bin:/sbin:/usr/sbin"] }

/-- The teardown command of lines 105-107. -/
def execCmd.unpersist (runtimePath : String) : Cmd :=
  { execCommand "bst-unpersist" [runtimePath] with Stdout := true, Stderr := true }

/-- The effects that create or remove a path, start or run a process, or
observe the child's completion: everything except reads, signal handling and
diagnostics. -/
def Effect.isLifecycle : Effect → Bool
  | .mkdirAll _ _ _ => true
  | .start _ => true
  | .recvDone _ => true
  | .run _ _ => true
  | .remove _ _ => true
  | _ => false

/-! ## Example inputs -/

/-- Environment with only `XDG_STATE_HOME` set. -/
def exEnvXdg : String → String := fun k => if k = "XDG_STATE_HOME" then "/state" else ""

/-- Environment with neither variable set. -/
def exEnvNone : String → String := fun _ => ""

/-- Environment with only `HOME` set. -/
def exEnvHome : String → String := fun k => if k = "HOME" then "/home/u" else ""

/-- A world in which every file decodes to `parsed`, every probe answers
`stat`, and directory creation, teardown and removal succeed. -/
def exWorld (getenv : String → String) (parsed : Container) (stat : StatResult)
    (signalFirst : Bool) (child : ChildOutcome) : World :=
  { Args0 := "toyc", Getenv := getenv, Open := fun _ => .file parsed none,
    Stat := fun _ => stat, MkdirAll := fun _ => none, signalFirst := signalFirst,
    childRun := cmdRun child, unpersistRun := none, Remove := fun _ => none }

/-- A descriptor with relative paths. -/
def exRelative : Container :=
  { Name := "", Root := "rootfs", Argv := ["sh"], Mounts := [], RuntimePath := "run" }

/-- The descriptor of scenarios A and B. -/
def exScenario : Container :=
  { Name := "", Root := "/rootfs", Argv := [], Mounts := [], RuntimePath := "/run/c1" }

/-- A descriptor with two valid mount entries. -/
def exMounted : Container :=
  { Name := "c1", Root := "/rootfs", Argv := ["ls", "-l"],
    Mounts := [{ Source := "", Target := "/proc", Typ := "proc", Options := [] },
               { Source := "/srv", Target := "/mnt", Typ := "", Options := ["bind", "ro"] }],
    RuntimePath := "/run/c1" }

/-- A descriptor whose only mount entry has an empty target. -/
def exBadMount : Container :=
  { Name := "c1", Root := "/rootfs", Argv := ["ls"],
    Mounts := [{ Source := "", Target := "", Typ := "", Options := [] }],
    RuntimePath := "/run/c1" }

/-! ## Lemmas on `filepath.Clean` -/

theorem dropWhile_length_le (p : Char → Bool) (l : List Char) :
    (l.dropWhile p).length ≤ l.length := by
  induction l with
  | nil => simp
  | cons a t ih =>
    simp only [List.dropWhile_cons]
    split
    · simp only [List.length_cons]; omega
    · exact Nat.le_refl _

/-- The iteration bound of `cleanLoop` is never what stops the loop: any two
bounds that are at least the number of unread bytes give the same result. -/
theorem cleanLoop_fuel_irrelevant (rooted : Bool) :
    ∀ (f1 f2 : Nat) (rest out : List Char) (dotdot : Nat),
      rest.length ≤ f1 → rest.length ≤ f2 →
      cleanLoop rooted f1 rest out dotdot = cleanLoop rooted f2 rest out dotdot := by
  intro f1
  induction f1 with
  | zero =>
    intro f2 rest out dotdot h1 _
    have : rest = [] := List.length_eq_zero.mp (Nat.le_zero.mp h1)
    subst this
    cases f2 <;> simp [cleanLoop]
  | succ n ih =>
    intro f2 rest out dotdot h1 h2
    cases rest with
    | nil => cases f2 <;> simp [cleanLoop]
    | cons c rest =>
      cases f2 with
      | zero => simp at h2
      | succ m =>
        simp only [List.length_cons, Nat.add_le_add_iff_right] at h1 h2
        have ht1 : rest.tail.length ≤ n := by
          have := List.length_tail rest; omega
        have ht2 : rest.tail.length ≤ m := by
          have := List.length_tail rest; omega
        simp only [cleanLoop]
        split
        · exact ih m rest out dotdot h1 h2
        · rename_i hc
          split
          · exact ih m rest out dotdot h1 h2
          · split
            · split
              · exact ih m _ _ _ ht1 ht2
              · split
                · exact ih m _ _ _ ht1 ht2
                · exact ih m _ _ _ ht1 ht2
            · have hd : ((c :: rest).dropWhile (· ≠ '/')).length ≤ rest.length := by
                have : (c :: rest).dropWhile (· ≠ '/') = rest.dropWhile (· ≠ '/') := by
                  simp [List.dropWhile_cons, hc]
                rw [this]
                exact dropWhile_length_le _ _
              exact ih m _ _ _ (Nat.le_trans hd h1) (Nat.le_trans hd h2)

theorem cleanBacktrack_pos (buf : List Char) :
    ∀ w : Nat, 1 ≤ w → 1 ≤ cleanBacktrack buf 1 w := by
  intro w
  induction w with
  | zero => intro h; omega
  | succ n ih =>
    intro _
    simp only [cleanBacktrack]
    split
    · rename_i h
      exact ih (by omega)
    · omega

theorem head?_take_pos (l : List Char) (k : Nat) (hk : 1 ≤ k) :
    (l.take k).head? = l.head? := by
  cases l with
  | nil => simp
  | cons a t =>
    cases k with
    | zero => omega
    | succ k => simp

theorem head?_append_of_head? (l m : List Char) (c : Char) (h : l.head? = some c) :
    (l ++ m).head? = some c := by
  cases l with
  | nil => simp at h
  | cons a t => simpa using h

/-- On a rooted path the output buffer always keeps its leading separator. -/
theorem cleanLoop_rooted_head :
    ∀ (fuel : Nat) (rest out : List Char), out.head? = some '/' →
      (cleanLoop true fuel rest out 1).head? = some '/' := by
  intro fuel
  induction fuel with
  | zero => intro rest out h; simpa [cleanLoop] using h
  | succ n ih =>
    intro rest out h
    cases rest with
    | nil => simpa [cleanLoop] using h
    | cons c rest =>
      simp only [cleanLoop]
      split
      · exact ih _ _ h
      · split
        · exact ih _ _ h
        · split
          · split
            · rename_i hlen
              apply ih
              rw [head?_take_pos _ _ (cleanBacktrack_pos out _ (by omega))]
              exact h
            · simp only [Bool.true_eq_false, if_false]
              exact ih _ _ h
          · apply ih
            apply head?_append_of_head?
            split
            · exact head?_append_of_head? _ _ _ h
            · exact h

theorem IsAbs_iff (p : String) : IsAbs p = true ↔ p.data.head? = some '/' := by
  unfold IsAbs
  cases p.data with
  | nil => simp
  | cons a t => simp

theorem Clean_isAbs (p : String) (h : IsAbs p = true) : IsAbs (Clean p) = true := by
  rw [IsAbs_iff] at h ⊢
  unfold Clean
  cases hp : p.data with
  | nil => rw [hp] at h; simp at h
  | cons c rest =>
    rw [hp] at h
    simp only [List.head?_cons, Option.some.injEq] at h
    subst h
    simp only [beq_self_eq_true, if_true]
    have hh := cleanLoop_rooted_head (('/' :: rest).length) rest ['/'] rfl
    have hne : (cleanLoop true (('/' :: rest).length) rest ['/'] 1).length ≠ 0 := by
      intro h0
      rw [List.length_eq_zero.mp h0] at hh
      simp at hh
    simp only [hne, if_false]
    exact hh

theorem Join_isAbs (d x : String) (h : IsAbs d = true) : IsAbs (Join [d, x]) = true := by
  have hd : d ≠ "" := by
    intro h0; subst h0; simp [IsAbs] at h
  simp only [Join, hd, ne_eq, not_false_eq_true, if_true]
  apply Clean_isAbs
  rw [IsAbs_iff] at h ⊢
  simp only [stringsJoin, String.data_append]
  rw [List.append_assoc]
  exact head?_append_of_head? _ _ _ h

/-! ## Invocation builder -/

/-- When every remaining target is non-empty the mount loop succeeds and has
appended one `--mount` pair per entry, in list order. -/
theorem mountLoop_ok (ms : List MountEntry) :
    ∀ args : List String, (∀ m ∈ ms, m.Target ≠ "") →
      Command.mountLoop ms args = .ok (args ++ ms.flatMap (fun m =>
        ["--mount", "source=" ++ (if m.Source = "" then "none" else m.Source) ++
          ",target=" ++ m.Target ++ ",type=" ++ (if m.Typ = "" then "none" else m.Typ) ++
          "," ++ stringsJoin m.Options ","])) := by
  induction ms with
  | nil => intro args _; simp [Command.mountLoop]
  | cons m ms ih =>
    intro args h
    have hm : m.Target ≠ "" := h m (List.mem_cons_self _ _)
    have hrest : ∀ x ∈ ms, x.Target ≠ "" := fun x hx => h x (List.mem_cons_of_mem _ hx)
    simp only [Command.mountLoop, hm, if_false]
    rw [ih _ hrest]
    simp [List.flatMap_cons]

theorem mountLoop_error (ms : List MountEntry) :
    ∀ args : List String, (∃ m ∈ ms, m.Target = "") →
      Command.mountLoop ms args = .error (.other "Mount entry must have a non-empty target") := by
  induction ms with
  | nil => intro args h; simp at h
  | cons m ms ih =>
    intro args h
    by_cases hm : m.Target = ""
    · simp [Command.mountLoop, hm]
    · have hrest : ∃ x ∈ ms, x.Target = "" := by
        obtain ⟨x, hx, hxt⟩ := h
        rcases List.mem_cons.mp hx with rfl | hx
        · exact absurd hxt hm
        · exact ⟨x, hx, hxt⟩
      simp only [Command.mountLoop, hm, if_false]
      exact ih _ hrest

/-- C1: for a container whose mount entries all have a non-empty target, the
init-role command is `bst` with the arguments `-r Root --persist RuntimePath`,
then `--mount source=S,target=T,type=TY,OPTS` for every mount entry in list
order (empty source or type replaced by `none`, options joined with commas),
then `--workdir / --` and the command vector.  An entry without options ends in
a comma. -/
theorem Command_init_args (c : Container) (h : ∀ m ∈ c.Mounts, m.Target ≠ "") :
    Command c true = .ok (CommandContext "bst"
      (["-r", c.Root, "--persist", c.RuntimePath] ++
        c.Mounts.flatMap (fun m =>
          ["--mount", "source=" ++ (if m.Source = "" then "none" else m.Source) ++
            ",target=" ++ m.Target ++ ",type=" ++ (if m.Typ = "" then "none" else m.Typ) ++
            "," ++ stringsJoin m.Options ","]) ++
        ["--workdir", "/", "--"] ++ c.Argv)) ∧
    (∀ m ∈ c.Mounts, m.Options = [] →
      "source=" ++ (if m.Source = "" then "none" else m.Source) ++
        ",target=" ++ m.Target ++ ",type=" ++ (if m.Typ = "" then "none" else m.Typ) ++
        "," ++ stringsJoin m.Options "," =
      "source=" ++ (if m.Source = "" then "none" else m.Source) ++
        ",target=" ++ m.Target ++ ",type=" ++ (if m.Typ = "" then "none" else m.Typ) ++ ",") := by
  refine ⟨?_, ?_⟩
  · simp only [Command, if_true, List.nil_append]
    rw [mountLoop_ok c.Mounts _ h]
  · intro m _ ho
    rw [ho]
    simp [stringsJoin]

theorem Command_init_args_witness :
    (∀ m ∈ exMounted.Mounts, m.Target ≠ "") ∧
    Command exMounted true =
      .ok (CommandContext "bst" ["-r", "/rootfs", "--persist", "/run/c1",
        "--mount", "source=none,target=/proc,type=proc,",
        "--mount", "source=/srv,target=/mnt,type=none,bind,ro",
        "--workdir", "/", "--", "ls", "-l"]) :=
  ⟨by decide, ((Command_init_args exMounted (by decide)).1).trans rfl⟩

/-- C2: for every container, whatever its mounts, the joiner-role command is
`bst --share RuntimePath --workdir / --` followed by the command vector; the
result does not depend on `Root` or `Mounts`.  For `Root = /rootfs`,
`RuntimePath = /run/c1`, `Argv = [ls, -l]` the arguments are
`--share /run/c1 --workdir / -- ls -l`. -/
theorem Command_joiner_args (c : Container) :
    Command c false = .ok (CommandContext "bst"
      (["--share", c.RuntimePath, "--workdir", "/", "--"] ++ c.Argv)) ∧
    (∀ (root : String) (mounts : List MountEntry),
      Command { c with Root := root, Mounts := mounts } false = Command c false) ∧
    (∀ (name : String) (mounts : List MountEntry),
      Command { Name := name, Root := "/rootfs", Argv := ["ls", "-l"], Mounts := mounts,
                RuntimePath := "/run/c1" } false =
        .ok (CommandContext "bst" ["--share", "/run/c1", "--workdir", "/", "--", "ls", "-l"])) := by
  refine ⟨?_, ?_, ?_⟩
  · simp [Command]
  · intro root mounts; simp [Command]
  · intro name mounts; simp [Command]

/-- C3 fails for the joiner role: a container whose only mount entry has an
empty target still yields a command when `init` is false. -/
theorem Command_joiner_empty_target_ok :
    (∃ m ∈ exBadMount.Mounts, m.Target = "") ∧
    Command exBadMount false =
      .ok (CommandContext "bst" ["--share", "/run/c1", "--workdir", "/", "--", "ls"]) :=
  ⟨by decide, rfl⟩

/-- C3, amended: a container with a mount entry whose target is empty makes the
init-role `Container.Command` fail with an error and no command; the part of
`execCmd` that follows role determination then exits with status 1 without
starting or running any process. -/
theorem Command_init_empty_target_fails (c : Container)
    (h : ∃ m ∈ c.Mounts, m.Target = "") :
    Command c true = .error (.other "Mount entry must have a non-empty target") ∧
    ∀ (w : World) (name : String) (argv : List String),
      (execCmd.run w name argv c true).exit = some 1 ∧
      (execCmd.run w name argv c true).trace.filter Effect.isLifecycle = [] := by
  have hc : Command c true = .error (.other "Mount entry must have a non-empty target") := by
    simp only [Command, if_true, List.nil_append]
    rw [mountLoop_error c.Mounts _ h]
  refine ⟨hc, ?_⟩
  intro w name argv
  simp [execCmd.run, hc, fatalf, Result.after, Effect.isLifecycle]

theorem Command_init_empty_target_fails_witness :
    (∃ m ∈ exBadMount.Mounts, m.Target = "") ∧
    Command exBadMount true = .error (.other "Mount entry must have a non-empty target") :=
  ⟨by decide, (Command_init_empty_target_fails exBadMount (by decide)).1⟩

/-! ## Configuration loader -/

/-- C7: when the descriptor file opens and decodes without error,
`LoadContainerConfig d` returns no error and a record whose `Root` is the
parsed one if absolute and `filepath.Join(d, Root)` otherwise, likewise for
`RuntimePath`, with `Name`, `Argv` and `Mounts` as parsed; if `d` is absolute,
both returned paths are absolute. -/
theorem LoadContainerConfig_paths (w : World) (d : String) (parsed : Container)
    (h : w.Open (Join [d, "container.json"]) = .file parsed none) :
    (LoadContainerConfig w d).err = none ∧
    (LoadContainerConfig w d).ctnr.Root =
      (if IsAbs parsed.Root then parsed.Root else Join [d, parsed.Root]) ∧
    (LoadContainerConfig w d).ctnr.RuntimePath =
      (if IsAbs parsed.RuntimePath then parsed.RuntimePath else Join [d, parsed.RuntimePath]) ∧
    (LoadContainerConfig w d).ctnr.Name = parsed.Name ∧
    (LoadContainerConfig w d).ctnr.Argv = parsed.Argv ∧
    (LoadContainerConfig w d).ctnr.Mounts = parsed.Mounts ∧
    (IsAbs d = true →
      IsAbs (LoadContainerConfig w d).ctnr.Root = true ∧
      IsAbs (LoadContainerConfig w d).ctnr.RuntimePath = true) := by
  simp only [LoadContainerConfig, h]
  refine ⟨trivial, ?_, ?_, ?_, ?_, ?_, ?_⟩
  · by_cases h1 : IsAbs parsed.Root = true <;> by_cases h2 : IsAbs parsed.RuntimePath = true <;>
      simp [h1, h2]
  · by_cases h1 : IsAbs parsed.Root = true <;> by_cases h2 : IsAbs parsed.RuntimePath = true <;>
      simp [h1, h2]
  · by_cases h1 : IsAbs parsed.Root = true <;> by_cases h2 : IsAbs parsed.RuntimePath = true <;>
      simp [h1, h2]
  · by_cases h1 : IsAbs parsed.Root = true <;> by_cases h2 : IsAbs parsed.RuntimePath = true <;>
      simp [h1, h2]
  · by_cases h1 : IsAbs parsed.Root = true <;> by_cases h2 : IsAbs parsed.RuntimePath = true <;>
      simp [h1, h2]
  · intro hd
    by_cases h1 : IsAbs parsed.Root = true <;> by_cases h2 : IsAbs parsed.RuntimePath = true <;>
      simp [h1, h2, Join_isAbs _ _ hd]

theorem LoadContainerConfig_paths_witness :
    (exWorld exEnvXdg exRelative .ok false (.exited 0)).Open
        (Join ["/state/toyc/containers/c1", "container.json"]) = .file exRelative none ∧
    (LoadContainerConfig (exWorld exEnvXdg exRelative .ok false (.exited 0))
        "/state/toyc/containers/c1").ctnr.Root = "/state/toyc/containers/c1/rootfs" ∧
    (LoadContainerConfig (exWorld exEnvXdg exRelative .ok false (.exited 0))
        "/state/toyc/containers/c1").ctnr.RuntimePath = "/state/toyc/containers/c1/run" :=
  ⟨rfl,
   ((LoadContainerConfig_paths (exWorld exEnvXdg exRelative .ok false (.exited 0))
      "/state/toyc/containers/c1" exRelative rfl).2.1).trans (by decide),
   ((LoadContainerConfig_paths (exWorld exEnvXdg exRelative .ok false (.exited 0))
      "/state/toyc/containers/c1" exRelative rfl).2.2.1).trans (by decide)⟩

/-! ## Lifecycle coordinator -/

theorem LoadContainerConfig_trace_of_ok (w : World) (d : String)
    (h : (LoadContainerConfig w d).err = none) :
    (LoadContainerConfig w d).trace =
      [.openFile (Join [d, "container.json"]), .closeFile (Join [d, "container.json"])] := by
  simp only [LoadContainerConfig] at h ⊢
  cases hopen : w.Open (Join [d, "container.json"]) with
  | notExist => simp [hopen] at h
  | failed err => simp [hopen] at h
  | file decoded err => simp

/-- With a state home configured, a descriptor that loads and a runtime path
that exists, `execCmd` continues at line 65 with `init = false`. -/
theorem execCmd_eq_joiner (w : World) (name : String) (argv : List String)
    (hEnv : ¬ (w.Getenv "XDG_STATE_HOME" = "" ∧ w.Getenv "HOME" = ""))
    (hErr : (LoadContainerConfig w (execCmd.path w name)).err = none)
    (hStat : w.Stat (execCmd.ctnr w name argv).RuntimePath = .ok) :
    execCmd w (name :: argv) =
      Result.after
        [.openFile (Join [execCmd.path w name, "container.json"]),
         .closeFile (Join [execCmd.path w name, "container.json"]),
         .stat (execCmd.ctnr w name argv).RuntimePath]
        (execCmd.run w name argv (execCmd.ctnr w name argv) false) := by
  have ht := LoadContainerConfig_trace_of_ok w _ hErr
  simp only [execCmd.ctnr] at hStat
  simp only [execCmd, hEnv, if_false, hErr, ht, hStat, execCmd.ctnr, Result.after,
    List.cons_append, List.nil_append]

/-- With a state home configured, a descriptor that loads, an absent runtime
path and a successful directory creation, `execCmd` continues at line 65 with
`init = true`. -/
theorem execCmd_eq_init (w : World) (name : String) (argv : List String)
    (hEnv : ¬ (w.Getenv "XDG_STATE_HOME" = "" ∧ w.Getenv "HOME" = ""))
    (hErr : (LoadContainerConfig w (execCmd.path w name)).err = none)
    (hStat : w.Stat (execCmd.ctnr w name argv).RuntimePath = .notExist)
    (hMk : w.MkdirAll (execCmd.ctnr w name argv).RuntimePath = none) :
    execCmd w (name :: argv) =
      Result.after
        [.openFile (Join [execCmd.path w name, "container.json"]),
         .closeFile (Join [execCmd.path w name, "container.json"]),
         .stat (execCmd.ctnr w name argv).RuntimePath,
         .mkdirAll (execCmd.ctnr w name argv).RuntimePath 0o777 none]
        (execCmd.run w name argv (execCmd.ctnr w name argv) true) := by
  have ht := LoadContainerConfig_trace_of_ok w _ hErr
  simp only [execCmd.ctnr] at hStat hMk
  simp only [execCmd, hEnv, if_false, hErr, ht, hStat, hMk, execCmd.ctnr, Result.after,
    List.cons_append, List.nil_append]

/-- Lifecycle effects of lines 65-128 once the command has been built. -/
theorem run_lifecycle (w : World) (name : String) (argv : List String) (c : Container)
    (init : Bool) (cmd : Cmd) (hCmd : Command c init = .ok cmd) :
    (execCmd.run w name argv c init).trace.filter Effect.isLifecycle =
      [.start (execCmd.child w cmd), .recvDone w.childRun] ++
      (if init then
        [.run (execCmd.unpersist c.RuntimePath) w.unpersistRun,
         .remove c.RuntimePath (w.Remove c.RuntimePath)]
       else []) := by
  simp only [execCmd.run, hCmd, Result.after, execCmd.child, execCmd.unpersist]
  have hfin : ∀ e : Option GoError,
      (match e with
        | none => ({ trace := [], exit := none } : Result)
        | some e =>
          match e with
          | .exitError status _ =>
            if Exited status then { trace := [], exit := some (ExitStatus status) }
            else if Signaled status then { trace := [], exit := some (128 + Signal status) }
            else fatalf w 1 ("exec " ++ name ++ " " ++ stringsJoin argv " " ++
              ": running command: " ++ e.Error)
          | _ => fatalf w 1 ("exec " ++ name ++ " " ++ stringsJoin argv " " ++
              ": running command: " ++ e.Error)).trace.filter Effect.isLifecycle = [] := by
    intro e
    cases e with
    | none => rfl
    | some e =>
      cases e with
      | ErrContainerNotExist => rfl
      | other msg => rfl
      | exitError status msg =>
        simp only
        split
        · rfl
        · split <;> rfl
  simp only [List.filter_append, hfin]
  cases w.signalFirst <;> cases init <;> cases w.unpersistRun <;>
    cases w.Remove c.RuntimePath <;> simp [Effect.isLifecycle]

theorem status_after (pre : List Effect) (r : Result) :
    (Result.after pre r).status = r.status := rfl

theorem trace_after (pre : List Effect) (r : Result) :
    (Result.after pre r).trace = pre ++ r.trace := rfl

/-- Exit of lines 65-128 when the `<-done` case of the `select` was taken. -/
theorem run_exit_done (w : World) (name : String) (argv : List String) (c : Container)
    (init : Bool) (cmd : Cmd) (hCmd : Command c init = .ok cmd)
    (hRace : w.signalFirst = false) :
    (w.childRun = none → (execCmd.run w name argv c init).exit = none) ∧
    (∀ status msg, w.childRun = some (.exitError status msg) → Exited status = true →
      (execCmd.run w name argv c init).exit = some (ExitStatus status)) ∧
    (∀ status msg, w.childRun = some (.exitError status msg) → Exited status = false →
      Signaled status = true →
      (execCmd.run w name argv c init).exit = some (128 + Signal status)) ∧
    (∀ msg, w.childRun = some (.other msg) →
      (execCmd.run w name argv c init).exit = some 1) := by
  refine ⟨?_, ?_, ?_, ?_⟩
  · intro h
    simp [execCmd.run, hCmd, hRace, h, Result.after]
  · intro status msg h hex
    simp [execCmd.run, hCmd, hRace, h, hex, Result.after]
  · intro status msg h hex hsig
    simp [execCmd.run, hCmd, hRace, h, hex, hsig, Result.after]
  · intro msg h
    simp [execCmd.run, hCmd, hRace, h, Result.after, fatalf]

/-- Exit of lines 65-128 when the `<-signals` case of the `select` was taken. -/
theorem run_exit_signal (w : World) (name : String) (argv : List String) (c : Container)
    (init : Bool) (cmd : Cmd) (hCmd : Command c init = .ok cmd)
    (hRace : w.signalFirst = true) :
    (execCmd.run w name argv c init).exit = none := by
  simp [execCmd.run, hCmd, hRace, Result.after]

theorem mountLoop_extends (ms : List MountEntry) :
    ∀ (args out : List String), Command.mountLoop ms args = .ok out →
      ∃ tail, out = args ++ tail := by
  induction ms with
  | nil =>
    intro args out h
    simp only [Command.mountLoop, Except.ok.injEq] at h
    exact ⟨[], by simp [h]⟩
  | cons m ms ih =>
    intro args out h
    by_cases hm : m.Target = ""
    · simp [Command.mountLoop, hm] at h
    · simp only [Command.mountLoop, hm, if_false] at h
      obtain ⟨tail, ht⟩ := ih _ _ h
      exact ⟨_, by rw [ht, List.append_assoc]⟩

/-- An init-role command starts with `-r Root --persist RuntimePath`. -/
theorem Command_init_shape (c : Container) (cmd : Cmd) (h : Command c true = .ok cmd) :
    cmd.Name = "bst" ∧
    ∃ tail, cmd.Args = ["-r", c.Root, "--persist", c.RuntimePath] ++ tail := by
  simp only [Command, if_true, List.nil_append] at h
  cases hm : Command.mountLoop c.Mounts ["-r", c.Root, "--persist", c.RuntimePath] with
  | error e => simp [hm] at h
  | ok out =>
    obtain ⟨tail, ht⟩ := mountLoop_extends _ _ _ hm
    simp only [hm, Except.ok.injEq] at h
    subst h
    exact ⟨rfl, tail ++ ["--workdir", "/", "--"] ++ c.Argv, by simp [CommandContext, ht]⟩

theorem Command_joiner_eq (c : Container) :
    Command c false = .ok (CommandContext "bst"
      (["--share", c.RuntimePath, "--workdir", "/", "--"] ++ c.Argv)) := by
  simp [Command]

/-- Lifecycle effects of a whole joiner invocation. -/
theorem joiner_lifecycle (w : World) (name : String) (argv : List String)
    (hEnv : ¬ (w.Getenv "XDG_STATE_HOME" = "" ∧ w.Getenv "HOME" = ""))
    (hErr : (LoadContainerConfig w (execCmd.path w name)).err = none)
    (hStat : w.Stat (execCmd.ctnr w name argv).RuntimePath = .ok) :
    (execCmd w (name :: argv)).trace.filter Effect.isLifecycle =
      [.start (execCmd.child w (CommandContext "bst"
          (["--share", (execCmd.ctnr w name argv).RuntimePath, "--workdir", "/", "--"] ++ argv))),
       .recvDone w.childRun] := by
  rw [execCmd_eq_joiner w name argv hEnv hErr hStat, trace_after, List.filter_append,
    run_lifecycle w name argv _ false _ (Command_joiner_eq _)]
  simp [Effect.isLifecycle, execCmd.ctnr]

/-- Lifecycle effects of a whole init invocation whose command is built. -/
theorem init_lifecycle (w : World) (name : String) (argv : List String) (cmd : Cmd)
    (hEnv : ¬ (w.Getenv "XDG_STATE_HOME" = "" ∧ w.Getenv "HOME" = ""))
    (hErr : (LoadContainerConfig w (execCmd.path w name)).err = none)
    (hStat : w.Stat (execCmd.ctnr w name argv).RuntimePath = .notExist)
    (hMk : w.MkdirAll (execCmd.ctnr w name argv).RuntimePath = none)
    (hCmd : Command (execCmd.ctnr w name argv) true = .ok cmd) :
    (execCmd w (name :: argv)).trace.filter Effect.isLifecycle =
      [.mkdirAll (execCmd.ctnr w name argv).RuntimePath 0o777 none,
       .start (execCmd.child w cmd),
       .recvDone w.childRun,
       .run (execCmd.unpersist (execCmd.ctnr w name argv).RuntimePath) w.unpersistRun,
       .remove (execCmd.ctnr w name argv).RuntimePath
         (w.Remove (execCmd.ctnr w name argv).RuntimePath)] := by
  rw [execCmd_eq_init w name argv hEnv hErr hStat hMk, trace_after, List.filter_append,
    run_lifecycle w name argv _ true _ hCmd]
  simp [Effect.isLifecycle]

theorem mem_filter_lifecycle (tr : List Effect) (e : Effect) (he : e ∈ tr)
    (hl : e.isLifecycle = true) : e ∈ tr.filter Effect.isLifecycle :=
  List.mem_filter.mpr ⟨he, hl⟩

/-- C4: when the descriptor loads, the role is determined, the command is
built and the `select` takes the `<-done` case, the exit status of the
invocation follows from the child alone: code `N` for a normal exit with
`N ≤ 255`, `128 + S` for death by signal `S` (`1 ≤ S ≤ 64`), 1 when the child
could not be started; in either role and whatever the teardown steps return.
The signal case is stated for the `*exec.ExitError` of a child killed by `S`
(wait status `S`, plus the core flag 128), whatever its text. -/
theorem execCmd_status_of_child (w : World) (name : String) (argv : List String)
    (init : Bool) (cmd : Cmd)
    (hEnv : ¬ (w.Getenv "XDG_STATE_HOME" = "" ∧ w.Getenv "HOME" = ""))
    (hErr : (LoadContainerConfig w (execCmd.path w name)).err = none)
    (hRole : (w.Stat (execCmd.ctnr w name argv).RuntimePath = .ok ∧ init = false) ∨
      (w.Stat (execCmd.ctnr w name argv).RuntimePath = .notExist ∧
        w.MkdirAll (execCmd.ctnr w name argv).RuntimePath = none ∧ init = true))
    (hCmd : Command (execCmd.ctnr w name argv) init = .ok cmd)
    (hRace : w.signalFirst = false) :
    (∀ N : Nat, N ≤ 255 → w.childRun = cmdRun (.exited N) →
      (execCmd w (name :: argv)).status = N) ∧
    (∀ (S : Nat) (core : Bool) (msg : String), 1 ≤ S → S ≤ 64 →
      w.childRun = some (.exitError (S + if core then 128 else 0) msg) →
      (execCmd w (name :: argv)).status = 128 + S) ∧
    (∀ msg : String, w.childRun = cmdRun (.failedToStart msg) →
      (execCmd w (name :: argv)).status = 1) := by
  have hrun : (execCmd w (name :: argv)).status =
      (execCmd.run w name argv (execCmd.ctnr w name argv) init).status := by
    rcases hRole with ⟨hStat, rfl⟩ | ⟨hStat, hMk, rfl⟩
    · rw [execCmd_eq_joiner w name argv hEnv hErr hStat, status_after]
    · rw [execCmd_eq_init w name argv hEnv hErr hStat hMk, status_after]
  obtain ⟨h0, hE, hS, hF⟩ := run_exit_done w name argv _ init cmd hCmd hRace
  refine ⟨?_, ?_, ?_⟩
  · intro N hN hchild
    rw [hrun]
    by_cases hz : N = 0
    · subst hz
      have : w.childRun = none := by simpa [cmdRun] using hchild
      simp [Result.status, h0 this]
    · have hc : w.childRun = some (.exitError (N * 256) ("exit status " ++ toString N)) := by
        simpa [cmdRun, hz] using hchild
      have hex : Exited (N * 256) = true := by
        simp only [Exited, beq_iff_eq]; omega
      have hst : ExitStatus (N * 256) = (N : Int) := by
        simp only [ExitStatus, hex, if_true]
        have : N * 256 / 256 % 256 = N := by omega
        rw [this]
      simp [Result.status, hE _ _ hc hex, hst]
  · intro S core msg h1 h64 hc
    rw [hrun]
    have hmod : (S + if core then 128 else 0) % 128 = S := by
      cases core <;> simp <;> omega
    have hex : Exited (S + if core then 128 else 0) = false := by
      simp only [Exited, hmod, beq_eq_false_iff_ne, ne_eq]; omega
    have hsig : Signaled (S + if core then 128 else 0) = true := by
      simp only [Signaled, hmod, Bool.and_eq_true, bne_iff_ne, ne_eq]; omega
    have hsv : Signal (S + if core then 128 else 0) = (S : Int) := by
      simp only [Signal, hsig, if_true, hmod]
    simp [Result.status, hS _ _ hc hex hsig, hsv]
  · intro msg hchild
    rw [hrun]
    have hc : w.childRun = some (.other msg) := by simpa [cmdRun] using hchild
    simp [Result.status, hF _ hc]

theorem execCmd_status_of_child_witness :
    (exWorld exEnvXdg exScenario .notExist false (.exited 3)).signalFirst = false ∧
    (exWorld exEnvXdg exScenario .notExist false (.exited 3)).childRun = cmdRun (.exited 3) ∧
    (execCmd (exWorld exEnvXdg exScenario .notExist false (.exited 3))
      ["c1", "ls", "-l"]).status = 3 ∧
    (exWorld exEnvXdg exScenario .ok false (.signaled SIGINT true "signal: interrupt (core dumped)")).childRun =
      some (.exitError 130 "signal: interrupt (core dumped)") ∧
    (execCmd (exWorld exEnvXdg exScenario .ok false
        (.signaled SIGINT true "signal: interrupt (core dumped)"))
      ["c1", "ls", "-l"]).status = 130 :=
  ⟨rfl, rfl,
   (execCmd_status_of_child (exWorld exEnvXdg exScenario .notExist false (.exited 3))
      "c1" ["ls", "-l"] true
      (CommandContext "bst" ["-r", "/rootfs", "--persist", "/run/c1", "--workdir", "/", "--",
        "ls", "-l"])
      (by decide) (by decide) (Or.inr ⟨rfl, rfl, rfl⟩) rfl rfl).1 3 (by decide) rfl,
   rfl,
   (execCmd_status_of_child
      (exWorld exEnvXdg exScenario .ok false (.signaled SIGINT true "signal: interrupt (core dumped)"))
      "c1" ["ls", "-l"] false
      (CommandContext "bst" ["--share", "/run/c1", "--workdir", "/", "--", "ls", "-l"])
      (by decide) (by decide) (Or.inl ⟨rfl, rfl⟩) rfl rfl).2.1 2 true
      "signal: interrupt (core dumped)" (by decide) (by decide) rfl⟩

/-- C5 fails on the code: in scenario D (init role, the `select` takes the
signal case, the child dies of SIGINT) the coordinator cancels, waits and tears
down, but the value received from `done` is dropped and the invocation ends
with status 0, not 128 + SIGINT. -/
theorem execCmd_signal_case_status :
    (execCmd (exWorld exEnvXdg exScenario .notExist true (.signaled SIGINT false "signal: interrupt"))
      ["c1", "sleep", "60"]).status = 0 ∧
    (execCmd (exWorld exEnvXdg exScenario .notExist true (.signaled SIGINT false "signal: interrupt"))
      ["c1", "sleep", "60"]).trace.drop 5 =
      [.start (execCmd.child (exWorld exEnvXdg exScenario .notExist true (.signaled SIGINT false "signal: interrupt"))
          (CommandContext "bst" ["-r", "/rootfs", "--persist", "/run/c1", "--workdir", "/",
            "--", "sleep", "60"])),
       .recvSignal, .cancel,
       .recvDone (cmdRun (.signaled SIGINT false "signal: interrupt")),
       .run (execCmd.unpersist "/run/c1") none,
       .remove "/run/c1" none] ∧
    (execCmd (exWorld exEnvXdg exScenario .ok true (.signaled SIGINT false "signal: interrupt"))
      ["c1", "sleep", "60"]).status = 0 := by
  refine ⟨by decide, by decide, by decide⟩

/-- C6 fails on the code: with `XDG_STATE_HOME` empty and `HOME=/home/u` the
descriptor directory of container `c1` is the relative path `toyc/containers/c1`
(the value of `HOME` is read but never used), so the descriptor is opened at
`toyc/containers/c1/container.json`.  With `XDG_STATE_HOME=/state` the directory
is `/state/toyc/containers/c1`, and with both variables empty the invocation
only prints the diagnostic and exits with status 1. -/
theorem execCmd_home_fallback_path :
    exEnvHome "XDG_STATE_HOME" = "" ∧ exEnvHome "HOME" = "/home/u" ∧
    execCmd.path (exWorld exEnvHome exScenario .ok false (.exited 0)) "c1" =
      "toyc/containers/c1" ∧
    IsAbs (execCmd.path (exWorld exEnvHome exScenario .ok false (.exited 0)) "c1") = false ∧
    (execCmd (exWorld exEnvHome exScenario .ok false (.exited 0)) ["c1", "ls"]).trace.head? =
      some (.openFile "toyc/containers/c1/container.json") ∧
    execCmd.path (exWorld exEnvXdg exScenario .ok false (.exited 0)) "c1" =
      "/state/toyc/containers/c1" ∧
    execCmd (exWorld exEnvNone exScenario .ok false (.exited 0)) ["c1", "ls"] =
      fatalf (exWorld exEnvNone exScenario .ok false (.exited 0)) 1
        "no state home configured -- set the XDG_STATE_HOME or HOME environment variable." := by
  refine ⟨by decide, by decide, by decide, by decide, by decide, by decide, by decide⟩

/-- C8: when the runtime path exists at probe time, the invocation is a joiner:
its only lifecycle effects are starting `bst --share RuntimePath --workdir / --`
followed by the command vector, and observing the child's completion.  Whatever
the child's outcome and whichever case the `select` takes, no directory is
created, no command is run synchronously (so `bst-unpersist` is never invoked),
and nothing is removed. -/
theorem execCmd_joiner_no_mutation (w : World) (name : String) (argv : List String)
    (hEnv : ¬ (w.Getenv "XDG_STATE_HOME" = "" ∧ w.Getenv "HOME" = ""))
    (hErr : (LoadContainerConfig w (execCmd.path w name)).err = none)
    (hStat : w.Stat (execCmd.ctnr w name argv).RuntimePath = .ok) :
    (execCmd w (name :: argv)).trace.filter Effect.isLifecycle =
      [.start (execCmd.child w (CommandContext "bst"
          (["--share", (execCmd.ctnr w name argv).RuntimePath, "--workdir", "/", "--"] ++ argv))),
       .recvDone w.childRun] ∧
    (∀ e ∈ (execCmd w (name :: argv)).trace,
      (∀ p perm err, e ≠ .mkdirAll p perm err) ∧
      (∀ c err, e ≠ .run c err) ∧
      (∀ p err, e ≠ .remove p err) ∧
      (∀ c, e = .start c → c.Name = "bst")) := by
  have hl := joiner_lifecycle w name argv hEnv hErr hStat
  refine ⟨hl, ?_⟩
  intro e he
  refine ⟨?_, ?_, ?_, ?_⟩
  · intro p perm err heq
    have := mem_filter_lifecycle _ e he (by rw [heq]; rfl)
    rw [hl, heq] at this
    simp at this
  · intro c err heq
    have := mem_filter_lifecycle _ e he (by rw [heq]; rfl)
    rw [hl, heq] at this
    simp at this
  · intro p err heq
    have := mem_filter_lifecycle _ e he (by rw [heq]; rfl)
    rw [hl, heq] at this
    simp at this
  · intro c heq
    have := mem_filter_lifecycle _ e he (by rw [heq]; rfl)
    rw [hl, heq] at this
    simp only [List.mem_cons, Effect.start.injEq, List.mem_singleton, reduceCtorEq,
      or_false, List.not_mem_nil] at this
    rw [this]
    rfl

theorem execCmd_joiner_no_mutation_witness :
    (exWorld exEnvXdg exScenario .ok true (.signaled 9 false "signal: killed")).Stat "/run/c1" = .ok ∧
    (execCmd (exWorld exEnvXdg exScenario .ok true (.signaled 9 false "signal: killed"))
        ["c1", "ls", "-l"]).trace.filter Effect.isLifecycle =
      [.start (execCmd.child (exWorld exEnvXdg exScenario .ok true (.signaled 9 false "signal: killed"))
          (CommandContext "bst" ["--share", "/run/c1", "--workdir", "/", "--", "ls", "-l"])),
       .recvDone (cmdRun (.signaled 9 false "signal: killed"))] :=
  ⟨rfl,
   (execCmd_joiner_no_mutation (exWorld exEnvXdg exScenario .ok true (.signaled 9 false "signal: killed"))
      "c1" ["ls", "-l"] (by decide) (by decide) rfl).1⟩

/-- C9: when the runtime path is absent at probe time, the directory is created
and the command is built, the invocation is init: the command starts with
`-r Root --persist RuntimePath`, the runtime path exists once the role is
determined, and the lifecycle effects are, in this order and once each: the
directory creation, the start of the child, the observation of its completion,
the run of `bst-unpersist` with the runtime path as only argument, and the
removal of the runtime path, whatever the child's outcome, the case taken by
the `select`, and the result of `bst-unpersist`. -/
theorem execCmd_init_teardown_order (w : World) (name : String) (argv : List String)
    (cmd : Cmd)
    (hEnv : ¬ (w.Getenv "XDG_STATE_HOME" = "" ∧ w.Getenv "HOME" = ""))
    (hErr : (LoadContainerConfig w (execCmd.path w name)).err = none)
    (hStat : w.Stat (execCmd.ctnr w name argv).RuntimePath = .notExist)
    (hMk : w.MkdirAll (execCmd.ctnr w name argv).RuntimePath = none)
    (hCmd : Command (execCmd.ctnr w name argv) true = .ok cmd) :
    (execCmd w (name :: argv)).trace.filter Effect.isLifecycle =
      [.mkdirAll (execCmd.ctnr w name argv).RuntimePath 0o777 none,
       .start (execCmd.child w cmd),
       .recvDone w.childRun,
       .run (execCmd.unpersist (execCmd.ctnr w name argv).RuntimePath) w.unpersistRun,
       .remove (execCmd.ctnr w name argv).RuntimePath
         (w.Remove (execCmd.ctnr w name argv).RuntimePath)] ∧
    (execCmd.unpersist (execCmd.ctnr w name argv).RuntimePath).Name = "bst-unpersist" ∧
    (execCmd.unpersist (execCmd.ctnr w name argv).RuntimePath).Args =
      [(execCmd.ctnr w name argv).RuntimePath] ∧
    (cmd.Name = "bst" ∧ ∃ tail, cmd.Args =
      ["-r", (execCmd.ctnr w name argv).Root, "--persist",
        (execCmd.ctnr w name argv).RuntimePath] ++ tail) ∧
    (∃ pre post, (execCmd w (name :: argv)).trace =
        pre ++ .notify [SIGHUP, SIGINT, SIGTERM, SIGQUIT] :: post ∧
      pre.filter Effect.isLifecycle =
        [.mkdirAll (execCmd.ctnr w name argv).RuntimePath 0o777 none] ∧
      existsAfter (execCmd.ctnr w name argv).RuntimePath pre false = true) := by
  refine ⟨init_lifecycle w name argv cmd hEnv hErr hStat hMk hCmd, rfl, rfl,
    Command_init_shape _ cmd hCmd, ?_⟩
  rw [execCmd_eq_init w name argv hEnv hErr hStat hMk, trace_after]
  refine ⟨[.openFile (Join [execCmd.path w name, "container.json"]),
      .closeFile (Join [execCmd.path w name, "container.json"]),
      .stat (execCmd.ctnr w name argv).RuntimePath,
      .mkdirAll (execCmd.ctnr w name argv).RuntimePath 0o777 none],
    ((execCmd.run w name argv (execCmd.ctnr w name argv) true).trace).tail, ?_, ?_, ?_⟩
  · simp [execCmd.run, Result.after]
  · simp [Effect.isLifecycle]
  · simp [existsAfter]

theorem execCmd_init_teardown_order_witness :
    (exWorld exEnvXdg exScenario .notExist false (.exited 0)).Stat "/run/c1" = .notExist ∧
    Command (execCmd.ctnr (exWorld exEnvXdg exScenario .notExist false (.exited 0))
        "c1" ["ls", "-l"]) true =
      .ok (CommandContext "bst" ["-r", "/rootfs", "--persist", "/run/c1", "--workdir", "/",
        "--", "ls", "-l"]) ∧
    (execCmd (exWorld exEnvXdg exScenario .notExist false (.exited 0))
        ["c1", "ls", "-l"]).trace.filter Effect.isLifecycle =
      [.mkdirAll "/run/c1" 0o777 none,
       .start (execCmd.child (exWorld exEnvXdg exScenario .notExist false (.exited 0))
          (CommandContext "bst" ["-r", "/rootfs", "--persist", "/run/c1", "--workdir", "/",
            "--", "ls", "-l"])),
       .recvDone none,
       .run (execCmd.unpersist "/run/c1") none,
       .remove "/run/c1" none] :=
  ⟨rfl, rfl,
   (execCmd_init_teardown_order (exWorld exEnvXdg exScenario .notExist false (.exited 0))
      "c1" ["ls", "-l"]
      (CommandContext "bst" ["-r", "/rootfs", "--persist", "/run/c1", "--workdir", "/",
        "--", "ls", "-l"])
      (by decide) (by decide) rfl rfl rfl).1⟩

/-- C10: when the runtime path is absent at probe time, the directory is
created, and the loaded descriptor has a mount entry with an empty target, the
invocation exits with status 1; its only lifecycle effect is the directory
creation (no process is started or run, nothing is removed), so the runtime
path still exists at exit; a later invocation for the same container that
finds the path present is a joiner and starts `bst --share RuntimePath`. -/
theorem execCmd_init_bad_mount_leaves_dir (w : World) (name : String) (argv : List String)
    (hEnv : ¬ (w.Getenv "XDG_STATE_HOME" = "" ∧ w.Getenv "HOME" = ""))
    (hErr : (LoadContainerConfig w (execCmd.path w name)).err = none)
    (hStat : w.Stat (execCmd.ctnr w name argv).RuntimePath = .notExist)
    (hMk : w.MkdirAll (execCmd.ctnr w name argv).RuntimePath = none)
    (hBad : ∃ m ∈ (execCmd.ctnr w name argv).Mounts, m.Target = "") :
    (execCmd w (name :: argv)).exit = some 1 ∧
    (execCmd w (name :: argv)).status = 1 ∧
    (execCmd w (name :: argv)).trace.filter Effect.isLifecycle =
      [.mkdirAll (execCmd.ctnr w name argv).RuntimePath 0o777 none] ∧
    existsAfter (execCmd.ctnr w name argv).RuntimePath (execCmd w (name :: argv)).trace false
      = true ∧
    (∀ (w2 : World) (argv2 : List String), w2.Getenv = w.Getenv → w2.Open = w.Open →
      w2.Stat (execCmd.ctnr w name argv).RuntimePath = .ok →
      (execCmd w2 (name :: argv2)).trace.filter Effect.isLifecycle =
        [.start (execCmd.child w2 (CommandContext "bst"
            (["--share", (execCmd.ctnr w name argv).RuntimePath, "--workdir", "/", "--"]
              ++ argv2))),
         .recvDone w2.childRun]) := by
  have hc : Command (execCmd.ctnr w name argv) true =
      .error (.other "Mount entry must have a non-empty target") := by
    simp only [Command, if_true, List.nil_append]
    rw [mountLoop_error _ _ hBad]
  have hrun : execCmd.run w name argv (execCmd.ctnr w name argv) true =
      Result.after [.notify [SIGHUP, SIGINT, SIGTERM, SIGQUIT]]
        (fatalf w 1 ("exec " ++ name ++ " " ++ stringsJoin argv " " ++
          ": preparing command: " ++ "Mount entry must have a non-empty target")) := by
    simp [execCmd.run, hc, GoError.Error]
  rw [execCmd_eq_init w name argv hEnv hErr hStat hMk, hrun]
  refine ⟨rfl, rfl, ?_, ?_, ?_⟩
  · simp [Result.after, fatalf, Effect.isLifecycle]
  · simp [Result.after, fatalf, existsAfter]
  · intro w2 argv2 hG hO hS
    have hp : execCmd.path w2 name = execCmd.path w name := by
      simp [execCmd.path, hG]
    have hload : LoadContainerConfig w2 (execCmd.path w2 name) =
        LoadContainerConfig w (execCmd.path w name) := by
      simp [LoadContainerConfig, hp, hO]
    have hrp : (execCmd.ctnr w2 name argv2).RuntimePath =
        (execCmd.ctnr w name argv).RuntimePath := by
      simp [execCmd.ctnr, hload]
    have := joiner_lifecycle w2 name argv2 (by rw [hG]; exact hEnv) (by rw [hload]; exact hErr)
      (by rw [hrp]; exact hS)
    rw [this, hrp]

theorem execCmd_init_bad_mount_leaves_dir_witness :
    (∃ m ∈ (execCmd.ctnr (exWorld exEnvXdg exBadMount .notExist false (.exited 0))
        "c1" ["ls"]).Mounts, m.Target = "") ∧
    (execCmd (exWorld exEnvXdg exBadMount .notExist false (.exited 0)) ["c1", "ls"]).status = 1 ∧
    (execCmd (exWorld exEnvXdg exBadMount .notExist false (.exited 0))
        ["c1", "ls"]).trace.filter Effect.isLifecycle = [.mkdirAll "/run/c1" 0o777 none] :=
  ⟨by decide,
   (execCmd_init_bad_mount_leaves_dir (exWorld exEnvXdg exBadMount .notExist false (.exited 0))
      "c1" ["ls"] (by decide) (by decide) rfl rfl (by decide)).2.1,
   (execCmd_init_bad_mount_leaves_dir (exWorld exEnvXdg exBadMount .notExist false (.exited 0))
      "c1" ["ls"] (by decide) (by decide) rfl rfl (by decide)).2.2.1⟩

end Toyc
